import Mathlib

/-!
Shallow embedding of `Source/SGDLib/Criterion.h` (CNTK): the `EpochCriterion`
value type and the `CriterionAccumulator` struct, together with theorems
settling the specification claims about them.

Modelling conventions:
* C++ `double` is modelled by `Float64`: an exact rational together with the
  IEEE 754 special values `+inf`, `-inf` and `NaN`.  There is no signed zero
  in the model.  Arithmetic comes at two levels of fidelity:
  - `Float64.add` (and `Float64.div` inside `Average`) compute finite values
    exactly, with IEEE special-value propagation.  This exact model is used
    where a claim's truth does not hinge on rounding.
  - `Float64.addRN` is the rounding-faithful IEEE 754 binary64 addition:
    finite results are rounded to nearest (ties to even) onto the binary64
    grid via `Float64.round`, overflowing to infinity.  The merge operator
    `operator+=` and the delta operator `operator-` are embedded with it,
    because the associativity and delta-recovery claims about them are
    sensitive to rounding.
* C++ `size_t` is modelled by `Nat`, with every arithmetic operation reduced
  `% 2^64` exactly where the machine wraps.
* The device matrix `m_aggregateCriterionValues` ([1 x N]) is modelled as a
  `List Float64` of length N, and `m_aggregateSampleCounts` as a `List Nat`.
* A `ComputationNodeBasePtr` is modelled by the two facts the accumulator
  reads from it: the scalar `Value()(0,0)` and, when `HasMBLayout()`, the
  layout's `GetActualNumSamples()` (an `Option Nat`).
-/

/-- Model of IEEE 754 binary64 as used by `Criterion.h`: exact rationals plus
the special values. -/
inductive Float64 where
  | finite : ℚ → Float64
  | posInf : Float64
  | negInf : Float64
  | nan : Float64
deriving DecidableEq, Repr

/-- Fuel-bounded floor of `log2 n` (the fuel of 5000 used below exceeds every
binary64 exponent; for arguments beyond it the clamping in `Float64.round`
makes the rounded result independent of the shortfall). -/
def natLog2F : Nat → Nat → Nat
  | 0, _ => 0
  | fuel + 1, n => if n ≤ 1 then 0 else natLog2F fuel (n / 2) + 1

/-- Round a rational to the nearest integer, breaking ties towards the even
integer (the IEEE 754 default rounding of a significand). -/
def roundHalfEven (q : ℚ) : ℤ :=
  if q < (⌊q⌋ : ℚ) + 1 / 2 then ⌊q⌋
  else if (⌊q⌋ : ℚ) + 1 / 2 < q then ⌊q⌋ + 1
  else if ⌊q⌋ % 2 = 0 then ⌊q⌋ else ⌊q⌋ + 1

/-- Multiply a rational by `2^e` for an integer exponent `e`. -/
def mulPow2 (q : ℚ) (e : ℤ) : ℚ :=
  if 0 ≤ e then q * ((2 ^ e.toNat : ℕ) : ℚ)
  else q / ((2 ^ (-e).toNat : ℕ) : ℚ)

/-- Floor of `log2 q` for a positive rational `q`: the unique `e` with
`2^e ≤ q < 2^(e+1)` (exact for `2^-5000 < q < 2^5000`, far beyond the
binary64 range). -/
def ilog2 (q : ℚ) : ℤ :=
  if 1 ≤ q then Int.ofNat (natLog2F 5000 ⌊q⌋.toNat)
  else
    (let k := natLog2F 5000 ⌊1 / q⌋.toNat
     if mulPow2 1 (-(k : ℤ)) ≤ q then -(k : ℤ) else -(k : ℤ) - 1)

/-- IEEE 754 binary64 round-to-nearest-even of an exact rational: the result
is the nearest multiple of the unit in the last place at `q`'s magnitude
(exponent `⌊log2 q⌋ - 52`, clamped below at the subnormal unit `2^-1074`),
ties to the even multiple; magnitudes reaching `2^1024` overflow to the
corresponding infinity; `q = 0` and total underflow round to zero (the model
has no signed zero). -/
def Float64.round (q : ℚ) : Float64 :=
  if q = 0 then .finite 0
  else
    (let aq : ℚ := if q < 0 then -q else q
     let e0 : ℤ := ilog2 aq - 52
     let e : ℤ := if e0 < -1074 then -1074 else e0
     let m : ℤ := roundHalfEven (mulPow2 q (-e))
     let v : ℚ := mulPow2 (m : ℚ) e
     if ((2 ^ 1024 : ℕ) : ℚ) ≤ v then .posInf
     else if v ≤ -(((2 ^ 1024 : ℕ) : ℚ)) then .negInf
     else .finite v)

/-- Addition on the model with exact finite arithmetic and IEEE special-value
propagation.  This is the exact-arithmetic abstraction of double addition
(no rounding, no overflow), adequate for the statements whose truth does not
depend on rounding; `Float64.addRN` below is the rounding-faithful
refinement. -/
def Float64.add : Float64 → Float64 → Float64
  | .nan, _ => .nan
  | _, .nan => .nan
  | .posInf, .negInf => .nan
  | .negInf, .posInf => .nan
  | .posInf, _ => .posInf
  | _, .posInf => .posInf
  | .negInf, _ => .negInf
  | _, .negInf => .negInf
  | .finite a, .finite b => .finite (a + b)

/-- IEEE 754 negation on the model (exact: negation never rounds). -/
def Float64.neg : Float64 → Float64
  | .nan => .nan
  | .posInf => .negInf
  | .negInf => .posInf
  | .finite a => .finite (-a)

/-- IEEE 754 binary64 addition: special values propagate as in
`Float64.add`, and finite sums are rounded to nearest-even with overflow to
infinity (`Float64.round`).  This is the rounding-faithful model of C++
`double` addition. -/
def Float64.addRN : Float64 → Float64 → Float64
  | .nan, _ => .nan
  | _, .nan => .nan
  | .posInf, .negInf => .nan
  | .negInf, .posInf => .nan
  | .posInf, _ => .posInf
  | _, .posInf => .posInf
  | .negInf, _ => .negInf
  | _, .negInf => .negInf
  | .finite a, .finite b => Float64.round (a + b)

/-- IEEE 754 binary64 subtraction: `a - b = a + (-b)` (negation is exact, the
addition rounds). -/
def Float64.sub (a b : Float64) : Float64 :=
  Float64.addRN a (Float64.neg b)

/-- IEEE 754 division on the model (exact on finite values; no signed zero,
so `x / 0` for finite nonzero `x` takes the sign of `x`). -/
def Float64.div : Float64 → Float64 → Float64
  | .nan, _ => .nan
  | _, .nan => .nan
  | .posInf, .posInf => .nan
  | .posInf, .negInf => .nan
  | .negInf, .posInf => .nan
  | .negInf, .negInf => .nan
  | .posInf, .finite b => if b < 0 then .negInf else .posInf
  | .negInf, .finite b => if b < 0 then .posInf else .negInf
  | .finite _, .posInf => .finite 0
  | .finite _, .negInf => .finite 0
  | .finite a, .finite b =>
      if b = 0 then (if a = 0 then .nan else if 0 < a then .posInf else .negInf)
      else .finite (a / b)

/-- Source: `std::isnan` on the model. -/
def Float64.isnan : Float64 → Bool
  | .nan => true
  | _ => false

/-- IEEE 754 `==` comparison on the model: `NaN` compares unequal to
everything, including itself. -/
def Float64.ieeeEq : Float64 → Float64 → Bool
  | .nan, _ => false
  | _, .nan => false
  | .posInf, .posInf => true
  | .negInf, .negInf => true
  | .finite a, .finite b => a == b
  | _, _ => false

/-- The `size_t` modulus. -/
def size_t_mod : Nat := 2 ^ 64

/-- Model of `size_t` subtraction `a - b`, wrapping modulo `2^64` (for representable
inputs, i.e. inputs `< 2^64`). -/
def sub64 (a b : Nat) : Nat :=
  (a + (size_t_mod - b % size_t_mod)) % size_t_mod

/-- Source: `struct EpochCriterion : public std::pair<double, size_t>`: the pair
(aggregate criterion value, aggregate sample count).  `first` and `second`
keep the member names of `std::pair`. -/
structure EpochCriterion where
  first : Float64
  second : Nat
deriving DecidableEq, Repr

namespace EpochCriterion

/-- Source: `double Average() const { return second > 0 ? first / second : 0.0; }` -/
def Average (e : EpochCriterion) : Float64 :=
  if e.second > 0 then Float64.div e.first (Float64.finite (e.second : ℚ))
  else Float64.finite 0

/-- Source: `bool IsNan() const { return std::isnan(first); }` -/
def IsNan (e : EpochCriterion) : Bool :=
  e.first.isnan

/-- Source: `EpochCriterion operator-(const EpochCriterion& other) const
    { return EpochCriterion(first - other.first, second - other.second); }`
(the `double` subtraction is the rounding-faithful `Float64.sub`; the
`size_t` subtraction wraps modulo `2^64`). -/
def sub (e other : EpochCriterion) : EpochCriterion :=
  ⟨Float64.sub e.first other.first, sub64 e.second other.second⟩

/-- Source: `void operator+=(const EpochCriterion& other)
    { first += other.first; second += other.second; }`
(the `double` addition is the rounding-faithful `Float64.addRN`; the
`size_t` addition wraps modulo `2^64`).  Modelled functionally as returning
the updated value. -/
def addAssign (e other : EpochCriterion) : EpochCriterion :=
  ⟨Float64.addRN e.first other.first, (e.second + other.second) % size_t_mod⟩

/-- Source: `static EpochCriterion Infinity()
    { return EpochCriterion(std::numeric_limits<double>::infinity()); }`
(the defaulted second constructor argument is `0`). -/
def Infinity : EpochCriterion :=
  ⟨Float64.posInf, 0⟩

/-- Source: `bool IsInfinity() const
    { return first == std::numeric_limits<double>::infinity(); }` -/
def IsInfinity (e : EpochCriterion) : Bool :=
  Float64.ieeeEq e.first Float64.posInf

end EpochCriterion

/-- Model of what `CriterionAccumulator` reads from a
`ComputationNodeBasePtr`: the scalar `Value()(0,0)`, and
`GetMBLayout()->GetActualNumSamples()` when `HasMBLayout()` (else `none`). -/
structure ComputationNode where
  value00 : Float64
  mbLayout : Option Nat
deriving DecidableEq, Repr

/-- Source: `static size_t GetNumSamples(const ComputationNodeBasePtr& node, size_t
legacyNumSamples)`: the layout's actual number of samples when the node has a
minibatch layout, otherwise the caller-supplied `legacyNumSamples`. -/
def GetNumSamples (node : ComputationNode) (legacyNumSamples : Nat) : Nat :=
  match node.mbLayout with
  | some n => n
  | none => legacyNumSamples

/-- Source: `struct CriterionAccumulator`: the [1 x N] device row of running totals
and the N host sample counts. -/
structure CriterionAccumulator where
  m_aggregateCriterionValues : List Float64
  m_aggregateSampleCounts : List Nat
deriving DecidableEq, Repr

namespace CriterionAccumulator

/-- The constructor: both arrays zero-initialised at length `numCriteria`. -/
def new (numCriteria : Nat) : CriterionAccumulator :=
  ⟨List.replicate numCriteria (Float64.finite 0), List.replicate numCriteria 0⟩

/-- The shared private `Accumulate<reset>` of `Add`/`Assign`: with
`reset = true` it copies `nodes[i]->Value()(0,0)` over `totals[0,i]` and
overwrites `counts[i]`; with `reset = false` it adds element-to-element and
adds into `counts[i]` (a `size_t` addition, wrapping modulo `2^64`).  The
element addition uses the exact `Float64.add`. -/
def accumulate (reset : Bool) (acc : CriterionAccumulator)
    (nodes : List ComputationNode) (i legacyNumSamples : Nat) :
    CriterionAccumulator :=
  let node := nodes.getD i ⟨Float64.finite 0, none⟩
  if reset then
    ⟨acc.m_aggregateCriterionValues.set i node.value00,
     acc.m_aggregateSampleCounts.set i (GetNumSamples node legacyNumSamples)⟩
  else
    ⟨acc.m_aggregateCriterionValues.set i
       (Float64.add (acc.m_aggregateCriterionValues.getD i (Float64.finite 0))
         node.value00),
     acc.m_aggregateSampleCounts.set i
       ((acc.m_aggregateSampleCounts.getD i 0
           + GetNumSamples node legacyNumSamples) % size_t_mod)⟩

/-- Source: `Add(nodes, i, legacyNumSamples)`: `Accumulate</*reset=*/false>`. -/
def Add (acc : CriterionAccumulator) (nodes : List ComputationNode)
    (i legacyNumSamples : Nat) : CriterionAccumulator :=
  accumulate false acc nodes i legacyNumSamples

/-- Source: `Assign(nodes, i, legacyNumSamples)`: `Accumulate</*reset=*/true>`. -/
def Assign (acc : CriterionAccumulator) (nodes : List ComputationNode)
    (i legacyNumSamples : Nat) : CriterionAccumulator :=
  accumulate true acc nodes i legacyNumSamples

/-- Source: `EpochCriterion GetCriterion(size_t i) const`: package slot `i` of the
totals row and the count vector as an `EpochCriterion`. -/
def GetCriterion (acc : CriterionAccumulator) (i : Nat) : EpochCriterion :=
  ⟨acc.m_aggregateCriterionValues.getD i (Float64.finite 0),
   acc.m_aggregateSampleCounts.getD i 0⟩

end CriterionAccumulator

/-! ### Helper lemmas shared by the claim theorems -/

theorem Float64.zero_add_model (v : Float64) :
    Float64.add (Float64.finite 0) v = v := by
  cases v <;> simp [Float64.add]

theorem Float64.addRN_comm (x y : Float64) :
    Float64.addRN x y = Float64.addRN y x := by
  cases x <;> cases y <;> simp [Float64.addRN, add_comm]

theorem getD_set_self {α : Type} (l : List α) (i : Nat) (a d : α)
    (h : i < l.length) : (l.set i a).getD i d = a := by
  rw [List.getD_eq_getElem?_getD, List.getElem?_set_self h]
  rfl

theorem getD_set_of_ne {α : Type} (l : List α) (i j : Nat) (a d : α)
    (h : i ≠ j) : (l.set i a).getD j d = l.getD j d := by
  rw [List.getD_eq_getElem?_getD, List.getElem?_set_ne h,
    List.getD_eq_getElem?_getD]

theorem getD_replicate_self {α : Type} (n i : Nat) (x d : α)
    (h : i < n) : (List.replicate n x).getD i d = x := by
  rw [List.getD_eq_getElem?_getD, List.getElem?_replicate]
  simp [h]

theorem natLog2F_one : natLog2F 5000 1 = 0 := by decide

theorem natLog2F_pow52 : natLog2F 5000 4503599627370496 = 52 := by decide

set_option maxRecDepth 10000 in
theorem natLog2F_pow53succ : natLog2F 5000 9007199254740993 = 53 := by decide

set_option maxRecDepth 10000 in
theorem natLog2F_pow53 : natLog2F 5000 9007199254740992 = 53 := by decide

set_option maxRecDepth 100000 in
theorem natLog2F_pow1023 : natLog2F 5000 89884656743115795386465259539451236680898848947115328636715040578866337902750481566354238661203768010560056939935696678829394884407208311246423715319737062188883946712432742638151109800623047059726541476042502884419075341171231440736956555270413618581675255342293149119973622969239858152417678164812112068608 = 1023 := by decide

set_option maxRecDepth 100000 in
theorem natLog2F_pow1024 : natLog2F 5000 179769313486231590772930519078902473361797697894230657273430081157732675805500963132708477322407536021120113879871393357658789768814416622492847430639474124377767893424865485276302219601246094119453082952085005768838150682342462881473913110540827237163350510684586298239947245938479716304835356329624224137216 = 1024 := by decide

theorem foldl_addAssign_second (us : List EpochCriterion)
    (a : EpochCriterion) (ha : a.second < size_t_mod) :
    (us.foldl EpochCriterion.addAssign a).second
      = (a.second + (us.map EpochCriterion.second).sum) % size_t_mod := by
  induction us generalizing a with
  | nil =>
    simp [Nat.mod_eq_of_lt ha]
  | cons u rest ih =>
    have hmodpos : 0 < size_t_mod := by norm_num [size_t_mod]
    rw [List.foldl_cons, ih (a.addAssign u) (Nat.mod_lt _ hmodpos)]
    simp [EpochCriterion.addAssign, Nat.mod_add_mod, Nat.add_assoc]

/-! ### Claim theorems -/

/-- C1: for every `EpochCriterion`, `Average()` returns
`aggregateValue / aggregateSampleCount` when `aggregateSampleCount > 0`, and
returns exactly `0.0` when `aggregateSampleCount == 0`, regardless of
`aggregateValue`; the function is total (no error path). -/
theorem average_guard_C1 (v : Float64) (c : Nat) :
    (0 < c →
      EpochCriterion.Average ⟨v, c⟩ = Float64.div v (Float64.finite (c : ℚ))) ∧
    (c = 0 → EpochCriterion.Average ⟨v, c⟩ = Float64.finite 0) := by
  constructor
  · intro hc
    simp [EpochCriterion.Average, hc]
  · intro hc
    subst hc
    simp [EpochCriterion.Average]

/-- Witness for C1: the guard at count 15 divides, and at count 0 returns 0
even for an infinite aggregate value. -/
theorem average_guard_C1_witness :
    EpochCriterion.Average ⟨Float64.finite 7, 15⟩
        = Float64.div (Float64.finite 7) (Float64.finite 15) ∧
    EpochCriterion.Average ⟨Float64.posInf, 0⟩ = Float64.finite 0 :=
  ⟨(average_guard_C1 (Float64.finite 7) 15).1 (by norm_num),
   (average_guard_C1 Float64.posInf 0).2 rfl⟩

/-- C4 counterexample: the claim asserts `Infinity().Average()` equals
`+infinity`, but `Average`'s guard is on the count, `Infinity()`'s count is
0, and so `Average()` returns exactly `0.0` — never reaching the division. -/
theorem infinity_average_C4_cex :
    EpochCriterion.Average EpochCriterion.Infinity = Float64.finite 0 ∧
    Float64.finite 0 ≠ Float64.posInf := by
  refine ⟨rfl, ?_⟩
  intro h
  cases h

/-- C4 (amended): `Infinity()` produces the pair `(+infinity, 0)` and
satisfies `IsInfinity()`, but its `Average()` is exactly `0.0`: the guard in
`Average` is on the count, which is zero for `Infinity()`, so the infinite
value is zeroed out rather than divided. -/
theorem infinity_properties_C4 :
    EpochCriterion.Infinity = ⟨Float64.posInf, 0⟩ ∧
    EpochCriterion.IsInfinity EpochCriterion.Infinity = true ∧
    EpochCriterion.Average EpochCriterion.Infinity = Float64.finite 0 :=
  ⟨rfl, rfl, rfl⟩

/-- C5: for every count `c`, `EpochCriterion(NaN, c)` is `IsNan` and not
`IsInfinity`; `IsInfinity` holds iff the aggregate value is exactly
`+infinity` (so not for `NaN` and not for `-infinity`), and `IsNan` holds
iff the aggregate value is `NaN`. -/
theorem nan_inf_predicates_C5 (v : Float64) (c : Nat) :
    EpochCriterion.IsNan ⟨Float64.nan, c⟩ = true ∧
    EpochCriterion.IsInfinity ⟨Float64.nan, c⟩ = false ∧
    (EpochCriterion.IsInfinity ⟨v, c⟩ = true ↔ v = Float64.posInf) ∧
    (EpochCriterion.IsNan ⟨v, c⟩ = true ↔ v = Float64.nan) := by
  refine ⟨rfl, rfl, ?_, ?_⟩
  · cases v <;> simp [EpochCriterion.IsInfinity, Float64.ieeeEq]
  · cases v <;> simp [EpochCriterion.IsNan, Float64.isnan]

/-- C10: subtracting snapshots out of order wraps the sample count modulo
`2^64`: when `a.second < b.second` (both representable), `(a - b).second`
equals `(a.second - b.second) mod 2^64` as computed over the integers — an
unsigned wrap-around, not a negative count and not an error. -/
theorem sub_count_wraps_C10 (a b : EpochCriterion)
    (ha : a.second < size_t_mod) (hb : b.second < size_t_mod)
    (hlt : a.second < b.second) :
    (EpochCriterion.sub a b).second = a.second + size_t_mod - b.second ∧
    ((EpochCriterion.sub a b).second : ℤ)
        = ((a.second : ℤ) - (b.second : ℤ)) % (2 ^ 64 : ℤ) := by
  have h1 : (EpochCriterion.sub a b).second
      = a.second + size_t_mod - b.second := by
    simp only [EpochCriterion.sub, sub64, size_t_mod] at *
    omega
  refine ⟨h1, ?_⟩
  rw [h1]
  simp only [size_t_mod] at *
  omega

/-- Witness for C10: `(count 3) - (count 5)` wraps to `2^64 - 2`. -/
theorem sub_count_wraps_C10_witness :
    (EpochCriterion.sub ⟨Float64.finite 0, 3⟩
        ⟨Float64.finite 0, 5⟩).second = 3 + size_t_mod - 5 :=
  (sub_count_wraps_C10 ⟨Float64.finite 0, 3⟩ ⟨Float64.finite 0, 5⟩
      (by norm_num [size_t_mod]) (by norm_num [size_t_mod])
      (by norm_num)).1

/-- C2: starting from a freshly constructed (zero) accumulator with N slots,
adding `(v1, c1)` and then `(v2, c2)` into slot `i` makes `GetCriterion(i)`
equal `(v1 + v2, c1 + c2)` (counts below the `size_t` wrap). -/
theorem add_accumulates_C2 (N i : Nat) (hi : i < N)
    (nodes1 nodes2 : List ComputationNode) (legacy1 legacy2 : Nat)
    (v1 v2 : Float64) (c1 c2 : Nat)
    (hv1 : (nodes1.getD i ⟨Float64.finite 0, none⟩).value00 = v1)
    (hc1 : GetNumSamples (nodes1.getD i ⟨Float64.finite 0, none⟩) legacy1 = c1)
    (hv2 : (nodes2.getD i ⟨Float64.finite 0, none⟩).value00 = v2)
    (hc2 : GetNumSamples (nodes2.getD i ⟨Float64.finite 0, none⟩) legacy2 = c2)
    (hrange : c1 + c2 < size_t_mod) :
    CriterionAccumulator.GetCriterion
        (CriterionAccumulator.Add
          (CriterionAccumulator.Add (CriterionAccumulator.new N) nodes1 i
            legacy1)
          nodes2 i legacy2) i
      = ⟨Float64.add v1 v2, c1 + c2⟩ := by
  simp only [CriterionAccumulator.Add, CriterionAccumulator.accumulate,
    CriterionAccumulator.new, CriterionAccumulator.GetCriterion,
    if_neg Bool.false_ne_true, hv1, hc1, hv2, hc2]
  rw [getD_replicate_self N i (Float64.finite 0) (Float64.finite 0) hi]
  rw [getD_replicate_self N i 0 0 hi]
  rw [getD_set_self _ _ _ _ (by simpa using hi)]
  rw [getD_set_self _ _ _ _ (by simpa using hi)]
  rw [getD_set_self _ _ _ _ (by simpa using hi)]
  rw [getD_set_self _ _ _ _ (by simpa using hi)]
  rw [Float64.zero_add_model]
  simp only [size_t_mod] at *
  congr 1
  omega

/-- Witness for C2: the spec scenario — `(3.0, 10)` then `(4.0, 5)` into
slot 0 of a fresh 2-slot accumulator gives `(7.0, 15)`, whose average is
`7/15`. -/
theorem add_accumulates_C2_witness :
    CriterionAccumulator.GetCriterion
        (CriterionAccumulator.Add
          (CriterionAccumulator.Add (CriterionAccumulator.new 2)
            [⟨Float64.finite 3, some 10⟩] 0 0)
          [⟨Float64.finite 4, none⟩] 0 5) 0
      = ⟨Float64.finite 7, 15⟩ ∧
    EpochCriterion.Average ⟨Float64.finite 7, 15⟩ = Float64.finite (7 / 15) := by
  constructor
  · have h := add_accumulates_C2 2 0 (by norm_num) [⟨Float64.finite 3, some 10⟩]
      [⟨Float64.finite 4, none⟩] 0 5 (Float64.finite 3) (Float64.finite 4) 10 5
      rfl rfl rfl rfl (by norm_num [size_t_mod])
    rw [h]
    norm_num [Float64.add]
  · norm_num [EpochCriterion.Average, Float64.div]

/-- C3: after any prior state of the accumulator, `Assign` into slot `i`
with value `v` and count `c` makes `GetCriterion(i)` exactly `(v, c)`,
discarding all prior accumulation in that slot. -/
theorem assign_overwrites_C3 (acc : CriterionAccumulator)
    (nodes : List ComputationNode) (i legacy : Nat) (v : Float64) (c : Nat)
    (hv : i < acc.m_aggregateCriterionValues.length)
    (hc : i < acc.m_aggregateSampleCounts.length)
    (hval : (nodes.getD i ⟨Float64.finite 0, none⟩).value00 = v)
    (hcount : GetNumSamples (nodes.getD i ⟨Float64.finite 0, none⟩) legacy
      = c) :
    CriterionAccumulator.GetCriterion
        (CriterionAccumulator.Assign acc nodes i legacy) i = ⟨v, c⟩ := by
  simp only [CriterionAccumulator.Assign, CriterionAccumulator.accumulate,
    CriterionAccumulator.GetCriterion, if_true]
  rw [getD_set_self _ _ _ _ hv, getD_set_self _ _ _ _ hc, hval, hcount]

/-- Witness for C3: assigning `(1.0, 1)` into slot 0 over a dirty
accumulator yields exactly `(1.0, 1)`. -/
theorem assign_overwrites_C3_witness :
    CriterionAccumulator.GetCriterion
        (CriterionAccumulator.Assign ⟨[Float64.finite 7, Float64.finite 9],
          [15, 2]⟩ [⟨Float64.finite 1, some 1⟩] 0 0) 0
      = ⟨Float64.finite 1, 1⟩ :=
  assign_overwrites_C3 ⟨[Float64.finite 7, Float64.finite 9], [15, 2]⟩
    [⟨Float64.finite 1, some 1⟩] 0 0 (Float64.finite 1) 1
    (by norm_num) (by norm_num) rfl rfl

/-- C8: for both `Add` and `Assign` the count contributed by an update
equals the node's layout `GetActualNumSamples()` when the node has a
minibatch layout, and the caller-supplied `legacyNumSamples` otherwise. -/
theorem sample_count_C8 (acc : CriterionAccumulator)
    (nodes : List ComputationNode) (i legacy : Nat)
    (hc : i < acc.m_aggregateSampleCounts.length) :
    (∀ (node : ComputationNode) (n l : Nat), node.mbLayout = some n →
      GetNumSamples node l = n) ∧
    (∀ (node : ComputationNode) (l : Nat), node.mbLayout = none →
      GetNumSamples node l = l) ∧
    (CriterionAccumulator.Assign acc nodes i
        legacy).m_aggregateSampleCounts.getD i 0
      = GetNumSamples (nodes.getD i ⟨Float64.finite 0, none⟩) legacy ∧
    (CriterionAccumulator.Add acc nodes i
        legacy).m_aggregateSampleCounts.getD i 0
      = (acc.m_aggregateSampleCounts.getD i 0
          + GetNumSamples (nodes.getD i ⟨Float64.finite 0, none⟩) legacy)
        % size_t_mod := by
  refine ⟨?_, ?_, ?_, ?_⟩
  · intro node n l h
    simp [GetNumSamples, h]
  · intro node l h
    simp [GetNumSamples, h]
  · simp only [CriterionAccumulator.Assign, CriterionAccumulator.accumulate,
      if_true]
    rw [getD_set_self _ _ _ _ hc]
  · simp only [CriterionAccumulator.Add, CriterionAccumulator.accumulate,
      if_neg Bool.false_ne_true]
    rw [getD_set_self _ _ _ _ hc]

/-- Witness for C8: a node with a layout of 10 actual samples contributes
10 regardless of the legacy count 99; a node without a layout contributes
the legacy count; and `Assign` stores exactly that derived count. -/
theorem sample_count_C8_witness :
    GetNumSamples ⟨Float64.finite 0, some 10⟩ 99 = 10 ∧
    GetNumSamples ⟨Float64.finite 0, none⟩ 99 = 99 ∧
    (CriterionAccumulator.Assign ⟨[Float64.finite 0], [5]⟩
        [⟨Float64.finite 2, some 10⟩] 0 99).m_aggregateSampleCounts.getD 0 0
      = 10 := by
  have h := sample_count_C8 ⟨[Float64.finite 0], [5]⟩
    [⟨Float64.finite 2, some 10⟩] 0 99 (by norm_num)
  refine ⟨h.1 ⟨Float64.finite 0, some 10⟩ 10 99 rfl,
    h.2.1 ⟨Float64.finite 0, none⟩ 99 rfl, ?_⟩
  rw [h.2.2.1]
  rfl

/-- C9: `Add` and `Assign` on slot `i` mutate only slot `i`: every other
slot `j ≠ i` of both the totals row and the count vector is unchanged, as
observed through `GetCriterion(j)`.  (`GetCriterion` itself is a pure
projection in this functional model: it maps the accumulator to an
`EpochCriterion` without producing a new accumulator, so interleaved reads
of unchanged slots always yield the same snapshot.) -/
theorem slot_independence_C9 (acc : CriterionAccumulator)
    (nodes : List ComputationNode) (i j legacy : Nat) (hij : j ≠ i) :
    CriterionAccumulator.GetCriterion
        (CriterionAccumulator.Add acc nodes i legacy) j
      = CriterionAccumulator.GetCriterion acc j ∧
    CriterionAccumulator.GetCriterion
        (CriterionAccumulator.Assign acc nodes i legacy) j
      = CriterionAccumulator.GetCriterion acc j := by
  constructor <;>
  · simp only [CriterionAccumulator.Add, CriterionAccumulator.Assign,
      CriterionAccumulator.accumulate, CriterionAccumulator.GetCriterion,
      if_true, if_neg Bool.false_ne_true]
    rw [getD_set_of_ne _ _ _ _ _ (Ne.symm hij),
      getD_set_of_ne _ _ _ _ _ (Ne.symm hij)]

/-- Witness for C9: adding into slot 0 leaves slot 1's snapshot `(2.0, 4)`
untouched. -/
theorem slot_independence_C9_witness :
    CriterionAccumulator.GetCriterion
        (CriterionAccumulator.Add ⟨[Float64.finite 1, Float64.finite 2],
          [3, 4]⟩ [⟨Float64.finite 9, some 7⟩] 0 0) 1
      = ⟨Float64.finite 2, 4⟩ := by
  have h := (slot_independence_C9 ⟨[Float64.finite 1, Float64.finite 2],
    [3, 4]⟩ [⟨Float64.finite 9, some 7⟩] 0 1 0 (by norm_num)).1
  rw [h]
  rfl

/-- C6 counterexample: the claim asserts the merge `operator+=` is
associative, but IEEE binary64 addition is not.  First conjunct (rounding):
with the exact doubles `1.0` and `2^-53`, `(1 + 2^-53) + 2^-53` rounds to
`1.0` (each addition ties to even) while `1 + (2^-53 + 2^-53) = 1 + 2^-52`
is exact, and `1 ≠ 1 + 2^-52`.  Second conjunct (overflow): with the exact
doubles `2^1023` and `-2^1023`, `(2^1023 + 2^1023) + (-2^1023)` overflows to
`+infinity` and stays there, while `2^1023 + (2^1023 + (-2^1023)) = 2^1023`
is finite. -/
theorem merge_law_C6_cex :
    (EpochCriterion.addAssign
        (EpochCriterion.addAssign ⟨Float64.finite 1, 0⟩
          ⟨Float64.finite (1 / 2 ^ 53), 0⟩)
        ⟨Float64.finite (1 / 2 ^ 53), 0⟩
      ≠ EpochCriterion.addAssign ⟨Float64.finite 1, 0⟩
          (EpochCriterion.addAssign ⟨Float64.finite (1 / 2 ^ 53), 0⟩
            ⟨Float64.finite (1 / 2 ^ 53), 0⟩)) ∧
    (EpochCriterion.addAssign
        (EpochCriterion.addAssign ⟨Float64.finite (2 ^ 1023), 0⟩
          ⟨Float64.finite (2 ^ 1023), 0⟩)
        ⟨Float64.finite (-(2 ^ 1023)), 0⟩
      ≠ EpochCriterion.addAssign ⟨Float64.finite (2 ^ 1023), 0⟩
          (EpochCriterion.addAssign ⟨Float64.finite (2 ^ 1023), 0⟩
            ⟨Float64.finite (-(2 ^ 1023)), 0⟩)) := by
  constructor
  · simp only [EpochCriterion.addAssign, Float64.addRN, Float64.round,
      ilog2, roundHalfEven, mulPow2]
    try norm_num [natLog2F_one, natLog2F_pow52]
    try simp only [Int.reduceToNat]
    try norm_num [natLog2F_one, natLog2F_pow52]
    try simp only [Int.reduceToNat]
    try norm_num [natLog2F_one, natLog2F_pow52]
    try simp only [Int.reduceToNat]
    try norm_num [natLog2F_one, natLog2F_pow52]
    try simp only [Int.reduceToNat]
    try norm_num [natLog2F_one, natLog2F_pow52]
    try simp
    try norm_num
  · simp only [EpochCriterion.addAssign, Float64.addRN, Float64.round,
      ilog2, roundHalfEven, mulPow2]
    try norm_num [natLog2F_pow1023, natLog2F_pow1024]
    try simp only [Int.reduceToNat]
    try norm_num [natLog2F_pow1023, natLog2F_pow1024]
    try simp only [Int.reduceToNat]
    try norm_num [natLog2F_pow1023, natLog2F_pow1024]
    try simp only [Int.reduceToNat]
    try norm_num [natLog2F_pow1023, natLog2F_pow1024]
    try simp
    try norm_num

/-- C6 (amended): `a += b` performs pointwise addition of both fields — IEEE
binary64 addition of the values and wrapping `uint64` addition of the counts
— and the merge is commutative; it is NOT associative in general (IEEE
rounding and overflow break it, per the counterexample), though the
sample-count component is associative. -/
theorem merge_law_C6 (a b c : EpochCriterion) :
    EpochCriterion.addAssign a b
        = ⟨Float64.addRN a.first b.first,
           (a.second + b.second) % size_t_mod⟩ ∧
    EpochCriterion.addAssign a b = EpochCriterion.addAssign b a ∧
    (EpochCriterion.addAssign (EpochCriterion.addAssign a b) c).second
        = (EpochCriterion.addAssign a (EpochCriterion.addAssign b c)).second := by
  refine ⟨rfl, ?_, ?_⟩
  · simp [EpochCriterion.addAssign, Float64.addRN_comm a.first b.first,
      Nat.add_comm]
  · simp [EpochCriterion.addAssign, Nat.mod_add_mod, Nat.add_mod_mod,
      Nat.add_assoc]

/-- C7 counterexample: the claim asserts `(b - a)` recovers exactly the
updates applied between the snapshots, but the value field does not survive
IEEE arithmetic.  First conjunct (non-finite): with the sentinel
`a = Infinity()` and the single update `(+infinity, 5)`, the value of the
difference is `inf - inf = NaN`, not `+infinity`.  Second conjunct
(rounding, finite values only): from `a = (2^53, 0)`, the single update
`(1.0, 1)` is absorbed — `2^53 + 1` rounds back to `2^53` — so `b - a`
is `(0.0, 1)`, not `(1.0, 1)`. -/
theorem delta_law_C7_cex :
    (EpochCriterion.sub
        (EpochCriterion.addAssign EpochCriterion.Infinity
          ⟨Float64.posInf, 5⟩)
        EpochCriterion.Infinity
      ≠ ⟨Float64.posInf, 5⟩) ∧
    (EpochCriterion.sub
        (EpochCriterion.addAssign ⟨Float64.finite (2 ^ 53), 0⟩
          ⟨Float64.finite 1, 1⟩)
        ⟨Float64.finite (2 ^ 53), 0⟩
      ≠ ⟨Float64.finite 1, 1⟩) := by
  constructor
  · simp [EpochCriterion.addAssign, EpochCriterion.sub,
      EpochCriterion.Infinity, Float64.addRN, Float64.sub, Float64.neg]
  · simp only [EpochCriterion.addAssign, EpochCriterion.sub, sub64,
      Float64.sub, Float64.neg, Float64.addRN, Float64.round,
      ilog2, roundHalfEven, mulPow2]
    try norm_num [natLog2F_pow53, natLog2F_pow53succ, size_t_mod]
    try simp only [Int.reduceToNat]
    try norm_num [natLog2F_pow53, natLog2F_pow53succ, size_t_mod]
    try simp only [Int.reduceToNat]
    try norm_num [natLog2F_pow53, natLog2F_pow53succ, size_t_mod]
    try simp only [Int.reduceToNat]
    try norm_num [natLog2F_pow53, natLog2F_pow53succ, size_t_mod]
    try simp only [Int.reduceToNat]
    try norm_num [natLog2F_pow53, natLog2F_pow53succ, size_t_mod]
    try simp
    try norm_num

/-- C7 (amended): `operator-` performs pointwise subtraction of both fields
(IEEE binary64 subtraction of the values, wrapping `size_t` subtraction of
the counts), and the sample-count part of the delta law holds exactly: if
`b` is obtained from snapshot `a` by folding `operator+=` over any sequence
of updates whose total count stays below `2^64`, then `(b - a)` has exactly
the total sample count of those updates.  Exact recovery of the value field
does not hold under IEEE arithmetic (see the counterexample), so the value
of the delta — and hence `Average()` — is exact only up to rounding. -/
theorem delta_law_C7 (a : EpochCriterion) (us : List EpochCriterion)
    (ha : a.second < size_t_mod)
    (htot : a.second + (us.map EpochCriterion.second).sum < size_t_mod) :
    (∀ x y : EpochCriterion, EpochCriterion.sub x y
        = ⟨Float64.sub x.first y.first, sub64 x.second y.second⟩) ∧
    (EpochCriterion.sub (us.foldl EpochCriterion.addAssign a) a).second
      = (us.map EpochCriterion.second).sum := by
  refine ⟨fun x y => rfl, ?_⟩
  have hb := foldl_addAssign_second us a ha
  simp only [EpochCriterion.sub]
  rw [hb]
  simp only [sub64, size_t_mod] at *
  omega

/-- Witness for C7: from the zero snapshot, the updates `(3.0, 10)` and
`(4.0, 5)` leave a delta with exactly 15 samples. -/
theorem delta_law_C7_witness :
    (EpochCriterion.sub
        (([⟨Float64.finite 3, 10⟩, ⟨Float64.finite 4, 5⟩] :
            List EpochCriterion).foldl EpochCriterion.addAssign
          ⟨Float64.finite 0, 0⟩)
        ⟨Float64.finite 0, 0⟩).second = 15 := by
  have h := (delta_law_C7 ⟨Float64.finite 0, 0⟩
    [⟨Float64.finite 3, 10⟩, ⟨Float64.finite 4, 5⟩]
    (by norm_num [size_t_mod]) (by norm_num [size_t_mod])).2
  simpa using h
